import Mathlib

/-!
Verification of the CoPaw agent glue logic: the slash-command dispatcher
(`command_handler.py`), the token-counting utilities (`token_counting.py`)
and the memory-compaction pre-reasoning hook (`memory_compaction.py`),
shallowly embedded from the Python source.  Framework components that the
source treats as black boxes (tokenizer, formatter, memory manager
internals, `check_valid_messages`, `_truncate_text`) are modelled as
quantified environment functions; calls that may raise are modelled in the
`Except` monad.
-/

namespace CoPaw

/-! ## Python string primitives used by the source -/

/-- Python whitespace characters stripped by `str.strip()` (the ASCII set:
space, tab, newline, carriage return, vertical tab, form feed). -/
def pyIsSpace (c : Char) : Bool :=
  c = ' ' || c = '\t' || c = '\n' || c = '\r' || c.toNat = 11 || c.toNat = 12

/-- Python `s.strip()`: remove leading and trailing whitespace. -/
def pyStrip (s : String) : String :=
  ⟨((s.data.dropWhile pyIsSpace).reverse.dropWhile pyIsSpace).reverse⟩

/-- Python `s.lstrip("/")`: remove every leading `/` character. -/
def pyLstripSlashes (s : String) : String :=
  ⟨s.data.dropWhile (fun c => c = '/')⟩

/-! ## `CommandHandler.is_command` (command_handler.py lines 93-131) -/

/-- `CommandHandler.SYSTEM_COMMANDS`, the frozenset of supported command
names, modelled as a list. -/
def SYSTEM_COMMANDS : List String :=
  ["compact", "new", "clear", "history", "compact_str", "await_summary"]

/-- The possible run-time arguments of `is_command(query)`: a string, the
Python `None`, or any non-string value. -/
inductive Query where
  | str (s : String)
  | pyNone
  | nonString
deriving DecidableEq

/-- `CommandHandler.is_command`: `False` unless `query` is a string starting
with `/`; otherwise membership of `query.strip().lstrip("/")` in
`SYSTEM_COMMANDS`. -/
def is_command (query : Query) : Bool :=
  match query with
  | Query.str s =>
      if !(s.startsWith "/") then false
      else SYSTEM_COMMANDS.contains (pyLstripSlashes (pyStrip s))
  | _ => false

/-- C2: `is_command query` returns `True` exactly when `query` is a string
that starts with `/` and whose stripped, slash-stripped form is one of the
six supported command names; every other input (None, non-strings) yields
`False`. -/
theorem is_command_true_iff (q : Query) :
    is_command q = true ↔
      ∃ s, q = Query.str s ∧ s.startsWith "/" = true ∧
        (pyLstripSlashes (pyStrip s) = "compact" ∨
         pyLstripSlashes (pyStrip s) = "new" ∨
         pyLstripSlashes (pyStrip s) = "clear" ∨
         pyLstripSlashes (pyStrip s) = "history" ∨
         pyLstripSlashes (pyStrip s) = "compact_str" ∨
         pyLstripSlashes (pyStrip s) = "await_summary") := by
  cases q with
  | str s =>
      by_cases hs : s.startsWith "/"
      · simp [is_command, hs, SYSTEM_COMMANDS, List.contains]
      · simp [is_command, hs]
  | pyNone => simp [is_command]
  | nonString => simp [is_command]

/-! ## Token counting (token_counting.py)

Chat-format message dicts are modelled structurally.  The tokenizer is an
environment value whose initialisation (`_get_token_counter`) and `encode`
call may both fail, exactly the failure points of the Python source. -/

/-- One element of a list-valued `content` field.  A dict block carries its
`text` and `content` entries (the empty string models a missing or falsy
field, matching Python truthiness); a bare string block is appended as is;
anything else is skipped. -/
inductive ChatBlock where
  | dict (text : String) (contentField : String)
  | str (s : String)
  | other
deriving DecidableEq

/-- The `content` entry of a chat message dict: a string, a list of blocks,
or any other value (skipped).  A missing entry defaults to `""`, i.e.
`ChatContent.str ""`. -/
inductive ChatContent where
  | str (s : String)
  | list (blocks : List ChatBlock)
  | other
deriving DecidableEq

/-- A message dictionary in chat format, reduced to the only field
`_extract_text_from_messages` reads. -/
structure ChatMsg where
  content : ChatContent
deriving DecidableEq

/-- The parts contributed by one block of a list-valued content:
`text = block.get("text") or block.get("content", "")`, appended when
truthy; a bare string block is always appended. -/
def _extract_block_text (b : ChatBlock) : List String :=
  match b with
  | ChatBlock.dict t c =>
      let text := if t ≠ "" then t else c
      if text ≠ "" then [text] else []
  | ChatBlock.str s => [s]
  | ChatBlock.other => []

/-- The parts contributed by one message in `_extract_text_from_messages`. -/
def _extract_msg_parts (m : ChatMsg) : List String :=
  match m.content with
  | ChatContent.str s => [s]
  | ChatContent.list bs => bs.foldr (fun b acc => _extract_block_text b ++ acc) []
  | ChatContent.other => []

/-- `_extract_text_from_messages`: concatenate the text parts of all
messages with a newline separator. -/
def _extract_text_from_messages (messages : List ChatMsg) : String :=
  String.intercalate "\n"
    (messages.foldr (fun m acc => _extract_msg_parts m ++ acc) [])

/-- The tokenizer object: `encode` returns token ids and may raise. -/
structure Tokenizer where
  encode : String → Except String (List Nat)

/-- Environment for token counting: `_get_token_counter()` may itself fail
(tokenizer download or initialisation error). -/
structure TokenizerEnv where
  getCounter : Except String Tokenizer

/-- `count_message_tokens`: obtain the counter, extract the text, encode it
and return the number of token ids; any failure propagates. -/
def count_message_tokens (env : TokenizerEnv) (messages : List ChatMsg) :
    Except String Nat :=
  match env.getCounter with
  | Except.error e => Except.error e
  | Except.ok tc =>
      match tc.encode (_extract_text_from_messages messages) with
      | Except.error e => Except.error e
      | Except.ok ids => Except.ok ids.length

/-- `safe_count_message_tokens`: total by construction — on any failure of
`count_message_tokens` it falls back to `len(text) // 4` over the extracted
text. -/
def safe_count_message_tokens (env : TokenizerEnv) (messages : List ChatMsg) :
    Nat :=
  match count_message_tokens env messages with
  | Except.ok n => n
  | Except.error _ => (_extract_text_from_messages messages).length / 4

/-- The `try` block of `safe_count_str_tokens`: obtain the counter and
encode the text. -/
def _count_str_tokens_attempt (env : TokenizerEnv) (text : String) :
    Except String Nat :=
  match env.getCounter with
  | Except.error e => Except.error e
  | Except.ok tc =>
      match tc.encode text with
      | Except.error e => Except.error e
      | Except.ok ids => Except.ok ids.length

/-- `safe_count_str_tokens`: total by construction — on any failure it
falls back to `len(text) // 4`. -/
def safe_count_str_tokens (env : TokenizerEnv) (text : String) : Nat :=
  match _count_str_tokens_attempt env text with
  | Except.ok n => n
  | Except.error _ => text.length / 4

/-- C4: the safe token counters are total (they return a `Nat`, never an
exception); whenever the tokenizer path fails they return the
character-based estimate `len // 4` of the extracted text, and whenever it
succeeds they return its count. -/
theorem safe_count_fallback (env : TokenizerEnv) (messages : List ChatMsg)
    (text : String) :
    (∀ e, count_message_tokens env messages = Except.error e →
        safe_count_message_tokens env messages =
          (_extract_text_from_messages messages).length / 4) ∧
    (∀ n, count_message_tokens env messages = Except.ok n →
        safe_count_message_tokens env messages = n) ∧
    (∀ e, _count_str_tokens_attempt env text = Except.error e →
        safe_count_str_tokens env text = text.length / 4) ∧
    (∀ n, _count_str_tokens_attempt env text = Except.ok n →
        safe_count_str_tokens env text = n) := by
  refine ⟨?_, ?_, ?_, ?_⟩ <;> intro x h <;>
    simp [safe_count_message_tokens, safe_count_str_tokens, h]

/-- A tokenizer environment whose initialisation always fails. -/
def failTokEnv : TokenizerEnv := { getCounter := Except.error "init failed" }

/-- A concrete chat message list whose extracted text has 12 characters. -/
def demoChatMsgs : List ChatMsg := [⟨ChatContent.str "hello world!"⟩]

/-- Witness for C4: with a failing tokenizer, both safe counters return the
`len // 4` fallback at concrete inputs. -/
theorem safe_count_fallback_witness :
    safe_count_message_tokens failTokEnv demoChatMsgs = 3 ∧
    safe_count_str_tokens failTokEnv "abcdefgh" = 2 := by
  have h := safe_count_fallback failTokEnv demoChatMsgs "abcdefgh"
  exact ⟨(h.1 "init failed" rfl).trans (by decide),
         (h.2.2.1 "init failed" rfl).trans (by decide)⟩

/-! ## Agent message model (agentscope `Msg`, reduced to the fields read by
the code under verification) -/

/-- A content block of an agent message, as destructed by
`_get_block_tokens`.  `toolUse` carries `str(input_dict)` (empty when the
dict is falsy) and `raw_input`; `toolResultList` holds the nested blocks of
a list-valued `output`; the media constructors carry the block type
(`image`, `audio`, `video`) and the `source` variants. -/
inductive Block where
  | text (t : String)
  | thinking (t : String)
  | toolUse (inputStr rawInput : String)
  | toolResultStr (s : String)
  | toolResultList (items : List Block)
  | toolResultNone
  | mediaUrl (kind : String) (url : String)
  | mediaBase64 (kind : String) (data : String)
  | mediaOther (kind : String)
  | unknown

/-- `Msg.content`: either a plain string or a list of content blocks. -/
inductive MsgContent where
  | str (s : String)
  | blocks (bs : List Block)

/-- An agent message: the fields the handlers and the hook read. -/
structure Msg where
  name : String
  role : String
  id : Nat
  content : MsgContent

/-- The `type` field of a block, as read by the history formatter
(`block.get("type", "unknown")`). -/
def blockTypeName : Block → String
  | Block.text _ => "text"
  | Block.thinking _ => "thinking"
  | Block.toolUse _ _ => "tool_use"
  | Block.toolResultStr _ => "tool_result"
  | Block.toolResultList _ => "tool_result"
  | Block.toolResultNone => "tool_result"
  | Block.mediaUrl k _ => k
  | Block.mediaBase64 k _ => k
  | Block.mediaOther k => k
  | Block.unknown => "unknown"

mutual

/-- `_get_block_tokens`: token count and content string per block type,
recursing into list-valued `tool_result` outputs.  Empty text falls through
to `(0, "")` via Python truthiness, except the media-url branch, which
counts the url unconditionally, mirroring the source. -/
def _get_block_tokens (env : TokenizerEnv) : Block → Nat × String
  | Block.text t =>
      if t ≠ "" then (safe_count_str_tokens env t, t) else (0, "")
  | Block.thinking t =>
      if t ≠ "" then (safe_count_str_tokens env t, t) else (0, "")
  | Block.toolUse inputStr rawInput =>
      let total := inputStr ++ rawInput
      if total ≠ "" then (safe_count_str_tokens env total, total) else (0, "")
  | Block.toolResultStr s =>
      if s ≠ "" then (safe_count_str_tokens env s, s) else (0, "")
  | Block.toolResultList items => _get_block_tokens_list env items
  | Block.toolResultNone => (0, "")
  | Block.mediaUrl _ url => (safe_count_str_tokens env url, url)
  | Block.mediaBase64 _ data =>
      if data ≠ "" then (data.length / 4, "[base64]") else (0, "")
  | Block.mediaOther _ => (0, "")
  | Block.unknown => (0, "")

/-- The accumulation loop over a list-valued `tool_result` output: sum the
token counts and concatenate the content strings, in order. -/
def _get_block_tokens_list (env : TokenizerEnv) : List Block → Nat × String
  | [] => (0, "")
  | b :: rest =>
      let r := _get_block_tokens env b
      let rr := _get_block_tokens_list env rest
      (r.1 + rr.1, r.2 ++ rr.2)

end

/-! ## Command handler state model (command_handler.py) -/

/-- The memory state acted on by the handlers: the unmarked messages
(returned by `get_memory` with `exclude_mark=COMPRESSED`), the messages
already marked COMPRESSED, the compressed summary (`""` models Python
`None`), and the pending async summary tasks of the memory manager. -/
structure MemState where
  messages : List Msg
  compressedMessages : List Msg
  compressedSummary : String
  summaryTasks : List (List Msg)

/-- The `CommandHandler` configuration fields consulted by the handlers. -/
structure Handler where
  agent_name : String
  enable_memory_manager : Bool
  has_memory_manager_obj : Bool
deriving DecidableEq

/-- Black-box framework operations used by the handlers: the formatter
(producing chat-format dicts fed to the token counter), the memory manager
summarisation, awaiting the summary tasks (result text and remaining
tasks), and the configured `max_input_length`. -/
structure CmdEnv where
  tokEnv : TokenizerEnv
  format : List Msg → List ChatMsg
  compact_memory : List Msg → String → String
  await_summary_tasks : List (List Msg) → String × List (List Msg)
  max_input_length : Int

/-- `CommandHandler._has_memory_manager`. -/
def _has_memory_manager (h : Handler) : Bool :=
  h.enable_memory_manager && h.has_memory_manager_obj

/-- The memory model of `update_messages_mark(new_mark=COMPRESSED, ...)`:
messages whose id is listed move to the compressed pool; the count of
moved messages is returned. -/
def update_messages_mark (st : MemState) (msg_ids : List Nat) :
    MemState × Nat :=
  let marked := st.messages.filter (fun m => msg_ids.contains m.id)
  ({ st with
      messages := st.messages.filter (fun m => !(msg_ids.contains m.id)),
      compressedMessages := st.compressedMessages ++ marked },
   marked.length)

/-- `memory_manager.add_async_summary_task`: queue a summary task. -/
def add_async_summary_task (st : MemState) (messages : List Msg) : MemState :=
  { st with summaryTasks := st.summaryTasks ++ [messages] }

/-- One line of the /history report (the structured content of the
formatted line for one message). -/
structure HistoryEntry where
  role : String
  text_tokens : Nat
  block_infos : List String
  preview : String

/-- The header fields and per-message lines of the /history report. -/
structure HistoryReport where
  total_messages : Nat
  estimated_tokens : Nat
  max_input_length : Int
  context_usage_ratio : ℚ
  compressed_summary_tokens : Nat
  entries : List HistoryEntry

/-- A handler response: the text of the system `Msg` built by
`_make_system_msg`, or the structured /history report (its final float
rendering is not modelled). -/
inductive Response where
  | text (s : String)
  | history (r : HistoryReport)

/-- `CommandHandler._process_compact`: empty memory and disabled memory
manager return informational text unchanged; otherwise queue a summary
task, compact, store the new summary and mark the messages COMPRESSED. -/
def _process_compact (env : CmdEnv) (h : Handler) (st : MemState)
    (messages : List Msg) : MemState × Response :=
  if messages.isEmpty then
    (st, Response.text
      ("**No messages to compact.**\n\n" ++
       "- Current memory is empty\n" ++
       "- No action taken"))
  else if !(_has_memory_manager h) then
    (st, Response.text
      ("**Memory Manager Disabled**\n\n" ++
       "- Memory compaction is not available\n" ++
       "- Enable memory manager to use this feature"))
  else
    let st1 := add_async_summary_task st messages
    let compact_content := env.compact_memory messages st.compressedSummary
    let st2 := { st1 with compressedSummary := compact_content }
    let r := update_messages_mark st2 (messages.map Msg.id)
    (r.1, Response.text
      ("**Compact Complete!**\n\n" ++
       "- Messages compacted: " ++ toString r.2 ++ "\n" ++
       "**Compressed Summary:**\n" ++ compact_content ++ "\n" ++
       "- Summary task started in background\n"))

/-- `CommandHandler._process_new`: with empty memory only the summary is
cleared; with the manager disabled nothing changes; otherwise queue a
summary task, clear the summary and mark the messages COMPRESSED. -/
def _process_new (_env : CmdEnv) (h : Handler) (st : MemState)
    (messages : List Msg) : MemState × Response :=
  if messages.isEmpty then
    ({ st with compressedSummary := "" },
     Response.text
      ("**No messages to summarize.**\n\n" ++
       "- Current memory is empty\n" ++
       "- Compressed summary is clear\n" ++
       "- No action taken"))
  else if !(_has_memory_manager h) then
    (st, Response.text
      ("**Memory Manager Disabled**\n\n" ++
       "- Cannot start new conversation with summary\n" ++
       "- Enable memory manager to use this feature"))
  else
    let st1 := add_async_summary_task st messages
    let st2 := { st1 with compressedSummary := "" }
    let r := update_messages_mark st2 (messages.map Msg.id)
    (r.1, Response.text
      ("**New Conversation Started!**\n\n" ++
       "- Summary task started in background\n" ++
       "- Ready for new conversation"))

/-- `CommandHandler._process_clear`: `memory.content.clear()` empties the
whole store and the compressed summary is reset, unconditionally. -/
def _process_clear (st : MemState) (_messages : List Msg) :
    MemState × Response :=
  ({ st with messages := [], compressedMessages := [],
             compressedSummary := "" },
   Response.text
    ("**History Cleared!**\n\n" ++
     "- Compressed summary reset\n" ++
     "- Memory is now empty"))

/-- `CommandHandler._process_compact_str`: show the compressed summary, or
an informational text when it is falsy. -/
def _process_compact_str (st : MemState) (_messages : List Msg) :
    MemState × Response :=
  if st.compressedSummary = "" then
    (st, Response.text
      ("**No Compressed Summary**\n\n" ++
       "- No summary has been generated yet\n" ++
       "- Use /compact or wait for auto-compaction"))
  else
    (st, Response.text
      ("**Compressed Summary**\n\n" ++ st.compressedSummary))

/-- One line of the /history loop body: token count, block info and preview
for a single message (the per-message `try` cannot fail in this pure
model, so the `except` arm is not represented). -/
def historyEntry (env : CmdEnv) (m : Msg) : HistoryEntry :=
  match m.content with
  | MsgContent.str s =>
      { role := m.role,
        text_tokens := safe_count_str_tokens env.tokEnv s,
        block_infos := [],
        preview := if s.length > 100 then s.take 100 ++ "..." else s }
  | MsgContent.blocks bs =>
      let r := _get_block_tokens_list env.tokEnv bs
      { role := m.role,
        text_tokens := r.1,
        block_infos := bs.map (fun b =>
          blockTypeName b ++ "(tokens=" ++
            toString (_get_block_tokens env.tokEnv b).1 ++ ")"),
        preview := if r.2.length > 100 then r.2.take 100 ++ "..." else r.2 }

/-- `CommandHandler._process_history`: compressed-summary tokens plus
formatted-message tokens give the estimate; the context-usage ratio is
computed only for a positive `max_input_length` and is `0` otherwise. -/
def _process_history (env : CmdEnv) (st : MemState) (messages : List Msg) :
    MemState × Response :=
  let compressed_summary := st.compressedSummary
  let compressed_summary_tokens :=
    safe_count_str_tokens env.tokEnv compressed_summary
  let prompt := env.format messages
  let messages_tokens := safe_count_message_tokens env.tokEnv prompt
  let estimated_tokens := messages_tokens + compressed_summary_tokens
  let max_input_length := env.max_input_length
  let context_usage_ratio : ℚ :=
    if max_input_length > 0 then
      (estimated_tokens : ℚ) / (max_input_length : ℚ) * 100
    else 0
  (st, Response.history
    { total_messages := messages.length,
      estimated_tokens := estimated_tokens,
      max_input_length := max_input_length,
      context_usage_ratio := context_usage_ratio,
      compressed_summary_tokens := compressed_summary_tokens,
      entries := messages.map (historyEntry env) })

/-- `CommandHandler._process_await_summary`: disabled manager or no pending
task return informational text; otherwise await the tasks. -/
def _process_await_summary (env : CmdEnv) (h : Handler) (st : MemState)
    (_messages : List Msg) : MemState × Response :=
  if !(_has_memory_manager h) then
    (st, Response.text
      ("**Memory Manager Disabled**\n\n" ++
       "- Cannot await summary tasks\n" ++
       "- Enable memory manager to use this feature"))
  else
    let task_count := st.summaryTasks.length
    if task_count = 0 then
      (st, Response.text
        ("**No Summary Tasks**\n\n" ++
         "- No pending summary tasks to wait for"))
    else
      let r := env.await_summary_tasks st.summaryTasks
      ({ st with summaryTasks := r.2 },
       Response.text
        ("**Summary Tasks Complete**\n\n" ++
         "- Waited for " ++ toString task_count ++ " summary task(s)\n" ++
         "- " ++ r.1 ++
         "- All tasks have finished"))

/-- `CommandHandler.handle_command`: fetch the unmarked messages, strip the
query, and dispatch through `getattr(self, f"_process_{command}", None)`.
Exactly the six `_process_*` methods above exist on the class, so the
lookup succeeds precisely on the six command names; otherwise a
`RuntimeError` is raised, modelled as `Except.error`. -/
def handle_command (env : CmdEnv) (h : Handler) (st : MemState)
    (query : String) : Except String (MemState × Response) :=
  let messages := st.messages
  let command := pyLstripSlashes (pyStrip query)
  if command = "compact" then
    Except.ok (_process_compact env h st messages)
  else if command = "new" then
    Except.ok (_process_new env h st messages)
  else if command = "clear" then
    Except.ok (_process_clear st messages)
  else if command = "history" then
    Except.ok (_process_history env st messages)
  else if command = "compact_str" then
    Except.ok (_process_compact_str st messages)
  else if command = "await_summary" then
    Except.ok (_process_await_summary env h st messages)
  else
    Except.error ("Unknown command: " ++ query)

/-! ## Theorems about the command handler -/

/-- C3: `handle_command` raises the unknown-command `RuntimeError` exactly
when the stripped query is not one of the six supported names, and for
each of the six names it returns the corresponding handler result without
raising. -/
theorem handle_command_dispatch (env : CmdEnv) (h : Handler) (st : MemState)
    (query : String) :
    (pyLstripSlashes (pyStrip query) ∉ SYSTEM_COMMANDS →
        handle_command env h st query =
          Except.error ("Unknown command: " ++ query)) ∧
    (pyLstripSlashes (pyStrip query) = "compact" →
        handle_command env h st query =
          Except.ok (_process_compact env h st st.messages)) ∧
    (pyLstripSlashes (pyStrip query) = "new" →
        handle_command env h st query =
          Except.ok (_process_new env h st st.messages)) ∧
    (pyLstripSlashes (pyStrip query) = "clear" →
        handle_command env h st query =
          Except.ok (_process_clear st st.messages)) ∧
    (pyLstripSlashes (pyStrip query) = "history" →
        handle_command env h st query =
          Except.ok (_process_history env st st.messages)) ∧
    (pyLstripSlashes (pyStrip query) = "compact_str" →
        handle_command env h st query =
          Except.ok (_process_compact_str st st.messages)) ∧
    (pyLstripSlashes (pyStrip query) = "await_summary" →
        handle_command env h st query =
          Except.ok (_process_await_summary env h st st.messages)) := by
  refine ⟨fun hq => ?_, fun hq => ?_, fun hq => ?_, fun hq => ?_,
         fun hq => ?_, fun hq => ?_, fun hq => ?_⟩ <;>
    simp [SYSTEM_COMMANDS] at hq <;>
    simp [handle_command, hq]

/-- A concrete black-box environment for witnesses. -/
def wEnv : CmdEnv :=
  { tokEnv := failTokEnv,
    format := fun _ => [],
    compact_memory := fun _ s => s,
    await_summary_tasks := fun ts => ("done\n", ts),
    max_input_length := 0 }

/-- A handler with the memory manager disabled. -/
def wHandler : Handler :=
  { agent_name := "copaw",
    enable_memory_manager := false,
    has_memory_manager_obj := false }

/-- An empty concrete memory state. -/
def wState : MemState :=
  { messages := [], compressedMessages := [],
    compressedSummary := "", summaryTasks := [] }

/-- A concrete user message. -/
def wMsg : Msg :=
  { name := "user", role := "user", id := 7,
    content := MsgContent.str "hi" }

/-- Witness for C3: an unknown command raises and a supported one
dispatches, at concrete inputs. -/
theorem handle_command_dispatch_witness :
    handle_command wEnv wHandler wState "/bogus" =
      Except.error "Unknown command: /bogus" ∧
    handle_command wEnv wHandler wState "/clear" =
      Except.ok (_process_clear wState wState.messages) := by
  refine ⟨?_, ?_⟩
  · exact (handle_command_dispatch wEnv wHandler wState "/bogus").1
      (by decide)
  · exact (handle_command_dispatch wEnv wHandler wState "/clear").2.2.2.1
      (by decide)

/-- C6: `_process_clear` always empties the message store (marked and
unmarked), resets the compressed summary to the empty string, and returns
the informational text — independently of the handler configuration and of
the current state. -/
theorem process_clear_resets (st : MemState) (messages : List Msg) :
    (_process_clear st messages).1.messages = [] ∧
    (_process_clear st messages).1.compressedMessages = [] ∧
    (_process_clear st messages).1.compressedSummary = "" ∧
    (_process_clear st messages).2 =
      Response.text
        ("**History Cleared!**\n\n" ++
         "- Compressed summary reset\n" ++
         "- Memory is now empty") :=
  ⟨rfl, rfl, rfl, rfl⟩

/-- C9: with the memory manager disabled or absent, `_process_compact` and
`_process_new` (on a non-empty message list) and `_process_await_summary`
return their informational text and leave the memory state untouched: no
summary update, no marking, no queued task. -/
theorem disabled_handlers_frame (env : CmdEnv) (h : Handler) (st : MemState)
    (messages : List Msg) (hmm : _has_memory_manager h = false)
    (hne : messages ≠ []) :
    _process_compact env h st messages =
      (st, Response.text
        ("**Memory Manager Disabled**\n\n" ++
         "- Memory compaction is not available\n" ++
         "- Enable memory manager to use this feature")) ∧
    _process_new env h st messages =
      (st, Response.text
        ("**Memory Manager Disabled**\n\n" ++
         "- Cannot start new conversation with summary\n" ++
         "- Enable memory manager to use this feature")) ∧
    _process_await_summary env h st messages =
      (st, Response.text
        ("**Memory Manager Disabled**\n\n" ++
         "- Cannot await summary tasks\n" ++
         "- Enable memory manager to use this feature")) := by
  cases messages with
  | nil => exact absurd rfl hne
  | cons a l =>
      refine ⟨?_, ?_, ?_⟩ <;>
        simp [_process_compact, _process_new, _process_await_summary, hmm]

/-- Witness for C9: the three disabled handlers leave a concrete state
unchanged. -/
theorem disabled_handlers_frame_witness :
    _process_await_summary wEnv wHandler wState [wMsg] =
      (wState, Response.text
        ("**Memory Manager Disabled**\n\n" ++
         "- Cannot await summary tasks\n" ++
         "- Enable memory manager to use this feature")) :=
  (disabled_handlers_frame wEnv wHandler wState [wMsg] (by decide)
    (by simp)).2.2

/-- C5: the /history report estimates tokens as formatted-message tokens
plus compressed-summary tokens, and its context-usage percentage is
`estimated_tokens / max_input_length * 100` only for a positive
`max_input_length` and `0` otherwise, so the divisor is never zero or
negative. -/
theorem history_report_tokens (env : CmdEnv) (st : MemState)
    (messages : List Msg) :
    ∃ rep : HistoryReport,
      (_process_history env st messages).2 = Response.history rep ∧
      rep.estimated_tokens =
        safe_count_message_tokens env.tokEnv (env.format messages) +
          safe_count_str_tokens env.tokEnv st.compressedSummary ∧
      (env.max_input_length ≤ 0 → rep.context_usage_ratio = 0) ∧
      (0 < env.max_input_length →
        rep.context_usage_ratio * (env.max_input_length : ℚ) =
          (rep.estimated_tokens : ℚ) * 100) := by
  refine ⟨_, rfl, rfl, fun hle => ?_, fun hpos => ?_⟩
  · simp only [_process_history]
    rw [if_neg (by omega)]
  · simp only [_process_history]
    rw [if_pos hpos]
    have hm : (env.max_input_length : ℚ) ≠ 0 := by
      exact_mod_cast (by omega : env.max_input_length ≠ 0)
    field_simp

/-- A witness environment with a positive `max_input_length`. -/
def wEnv8 : CmdEnv := { wEnv with max_input_length := 8 }

/-- Witness for C5: at a concrete environment with `max_input_length = 8`
the usage ratio satisfies the division-free equation. -/
theorem history_report_tokens_witness :
    ∃ rep : HistoryReport,
      (_process_history wEnv8 wState []).2 = Response.history rep ∧
      rep.context_usage_ratio * 8 = (rep.estimated_tokens : ℚ) * 100 := by
  obtain ⟨rep, h1, _, _, h4⟩ := history_report_tokens wEnv8 wState []
  refine ⟨rep, h1, ?_⟩
  have := h4 (by decide)
  simpa using this

/-! ## Memory compaction hook (memory_compaction.py)

`MemoryCompactionHook.__call__` is embedded as an `Except` computation
over an environment of fallible black-box operations; the whole body is
wrapped by `try/except` in the source, modelled by `hookCallE`.  The
observable summarisation effects are collected in `HookEffects`. -/

/-- The leading run of system-role messages (the loop in lines 120-125). -/
def systemPromptMsgs (msgs : List Msg) : List Msg :=
  msgs.takeWhile (fun m => m.role == "system")

/-- `messages[len(system_prompt_messages):]`. -/
def remainingAfterSystem (msgs : List Msg) : List Msg :=
  msgs.drop (systemPromptMsgs msgs).length

/-- The `while keep_length > 0 and not check_valid_messages(...)` loop for
a positive starting value, with a possibly failing predicate; Python
`remaining[-k:]` is `drop (length - k)` (clamped for `k > length`). -/
def keepLengthLoop (cv : List Msg → Except String Bool)
    (remaining : List Msg) : Nat → Except String Nat
  | 0 => Except.ok 0
  | Nat.succ n =>
      match cv (remaining.drop (remaining.length - Nat.succ n)) with
      | Except.error e => Except.error e
      | Except.ok true => Except.ok (Nat.succ n)
      | Except.ok false => keepLengthLoop cv remaining n

/-- The split of lines 138-143: for a positive `keep_length`, compact
`remaining[:-keep_length]` and keep `remaining[-keep_length:]`; otherwise
compact everything. -/
def splitCompactKeep (keepLength : Int) (remaining : List Msg) :
    List Msg × List Msg :=
  if 0 < keepLength then
    (remaining.take (remaining.length - keepLength.toNat),
     remaining.drop (remaining.length - keepLength.toNat))
  else
    (remaining, [])

/-- The black-box operations the hook body awaits or calls; each may raise.
`format_and_count` is `formatter.format` composed with the (total)
`safe_count_message_tokens`, so its only failure source is the formatter;
`truncate_tool_results` is `_truncate_tool_result_texts`, whose internals
(framework `get_content_blocks`, `_truncate_text`) live outside this
repository slice. -/
structure HookEnv where
  get_memory : Except String (List Msg)
  check_valid_messages : List Msg → Except String Bool
  truncate_tool_results : List Msg → Except String Unit
  format_and_count : List Msg → Except String Nat
  add_async_summary_task : List Msg → Except String Unit
  get_compressed_summary : Except String String
  compact_memory : List Msg → String → Except String String
  update_compressed_summary : String → Except String Unit
  update_messages_mark : List Nat → Except String Nat

/-- The observable effects of one hook invocation: the task queued for the
background summary, the new compressed summary, the ids marked COMPRESSED,
the messages whose tool results were truncated, and the computed token
estimate.  `none` means the corresponding call did not happen. -/
structure HookEffects where
  taskAdded : Option (List Msg) := none
  summaryUpdated : Option String := none
  marked : Option (List Nat) := none
  truncated : Option (List Msg) := none
  estimate : Option Nat := none

/-- Whether the summarisation branch ran (all three summarisation effects
were performed). -/
def HookEffects.triggered (e : HookEffects) : Bool :=
  e.taskAdded.isSome && e.summaryUpdated.isSome && e.marked.isSome

/-- The body of `MemoryCompactionHook.__call__` inside the `try` block.
The debug log at line 118 evaluates `messages[-1]`, which raises
`IndexError` on an empty memory; errors of every awaited call propagate to
the enclosing handler. -/
def hookBody (env : HookEnv) (memory_compact_threshold keep_recent : Int) :
    Except String HookEffects :=
  match env.get_memory with
  | Except.error e => Except.error e
  | Except.ok messages =>
    if messages.isEmpty then
      Except.error "IndexError: list index out of range"
    else
      let remaining := remainingAfterSystem messages
      if (remaining.length : Int) ≤ keep_recent then Except.ok {}
      else
        match (if keep_recent ≤ 0 then Except.ok keep_recent
               else Except.map Int.ofNat
                 (keepLengthLoop env.check_valid_messages remaining
                    keep_recent.toNat)) with
        | Except.error e => Except.error e
        | Except.ok keep_length =>
          let s := splitCompactKeep keep_length remaining
          match (if s.2.isEmpty then Except.ok ()
                 else env.truncate_tool_results s.2) with
          | Except.error e => Except.error e
          | Except.ok _ =>
            match env.format_and_count s.1 with
            | Except.error e => Except.error e
            | Except.ok estimated_tokens =>
              if memory_compact_threshold < (estimated_tokens : Int) then
                match env.add_async_summary_task s.1 with
                | Except.error e => Except.error e
                | Except.ok _ =>
                  match env.get_compressed_summary with
                  | Except.error e => Except.error e
                  | Except.ok previous_summary =>
                    match env.compact_memory s.1 previous_summary with
                    | Except.error e => Except.error e
                    | Except.ok compact_content =>
                      match env.update_compressed_summary compact_content with
                      | Except.error e => Except.error e
                      | Except.ok _ =>
                        match env.update_messages_mark (s.1.map Msg.id) with
                        | Except.error e => Except.error e
                        | Except.ok _updated_count =>
                          Except.ok
                            { taskAdded := some s.1,
                              summaryUpdated := some compact_content,
                              marked := some (s.1.map Msg.id),
                              truncated :=
                                if s.2.isEmpty then none else some s.2,
                              estimate := some estimated_tokens }
              else
                Except.ok
                  { truncated := if s.2.isEmpty then none else some s.2,
                    estimate := some estimated_tokens }

/-- `MemoryCompactionHook.__call__` at its public interface: the body runs
inside `try`, the `except Exception` arm only logs, and `return None` is
reached on both paths. -/
def hookCallE (env : HookEnv) (memory_compact_threshold keep_recent : Int) :
    Except String (Option Unit) :=
  match hookBody env memory_compact_threshold keep_recent with
  | Except.ok _ => Except.ok none
  | Except.error _ => Except.ok none

/-- C7: the hook never propagates an exception and always returns `None`,
for every behaviour of the black-box operations and every configuration. -/
theorem hook_call_total (env : HookEnv)
    (memory_compact_threshold keep_recent : Int) :
    hookCallE env memory_compact_threshold keep_recent =
      Except.ok none := by
  unfold hookCallE
  cases hookBody env memory_compact_threshold keep_recent <;> rfl

/-- A non-failing environment: the black boxes are pure functions.  Used
to settle the functional claims about the hook logic. -/
structure PureHookEnv where
  memory : List Msg
  check_valid : List Msg → Bool
  estimate : List Msg → Nat
  compact : List Msg → String → String
  previous_summary : String

/-- Lift a pure environment to the fallible interface. -/
def PureHookEnv.toEnv (p : PureHookEnv) : HookEnv :=
  { get_memory := Except.ok p.memory,
    check_valid_messages := fun l => Except.ok (p.check_valid l),
    truncate_tool_results := fun _ => Except.ok (),
    format_and_count := fun l => Except.ok (p.estimate l),
    add_async_summary_task := fun _ => Except.ok (),
    get_compressed_summary := Except.ok p.previous_summary,
    compact_memory := fun l s => Except.ok (p.compact l s),
    update_compressed_summary := fun _ => Except.ok (),
    update_messages_mark := fun ids => Except.ok ids.length }

/-- The caught hook call over a pure environment.  The only exception a
pure environment can produce is the empty-memory `IndexError`, raised
before any effect, so the empty effect record is faithful there. -/
def hookCallPure (p : PureHookEnv)
    (memory_compact_threshold keep_recent : Int) : HookEffects :=
  match hookBody p.toEnv memory_compact_threshold keep_recent with
  | Except.ok eff => eff
  | Except.error _ => {}

/-- The keep-length loop over a pure predicate. -/
def pureKeepLoop (cv : List Msg → Bool) (remaining : List Msg) : Nat → Nat
  | 0 => 0
  | Nat.succ n =>
      if cv (remaining.drop (remaining.length - Nat.succ n)) then Nat.succ n
      else pureKeepLoop cv remaining n

/-- The final `keep_length` over a pure predicate: a non-positive
`keep_recent` skips the loop. -/
def pureKeepLength (cv : List Msg → Bool) (keep_recent : Int)
    (remaining : List Msg) : Int :=
  if keep_recent ≤ 0 then keep_recent
  else Int.ofNat (pureKeepLoop cv remaining keep_recent.toNat)

theorem keepLengthLoop_pure (cv : List Msg → Bool) (remaining : List Msg)
    (n : Nat) :
    keepLengthLoop (fun l => Except.ok (cv l)) remaining n =
      Except.ok (pureKeepLoop cv remaining n) := by
  induction n with
  | zero => rfl
  | succ n ih =>
      by_cases hcv : cv (remaining.drop (remaining.length - Nat.succ n)) <;>
        simp [keepLengthLoop, pureKeepLoop, hcv, ih]

/-- Closed form of the hook body over a pure environment. -/
theorem hookBody_pure_eq (p : PureHookEnv) (thr kr : Int) :
    hookBody p.toEnv thr kr =
      (if p.memory.isEmpty then
        Except.error "IndexError: list index out of range"
      else if ((remainingAfterSystem p.memory).length : Int) ≤ kr then
        Except.ok {}
      else
        let s := splitCompactKeep
          (pureKeepLength p.check_valid kr (remainingAfterSystem p.memory))
          (remainingAfterSystem p.memory)
        if thr < (p.estimate s.1 : Int) then
          Except.ok
            { taskAdded := some s.1,
              summaryUpdated := some (p.compact s.1 p.previous_summary),
              marked := some (s.1.map Msg.id),
              truncated := if s.2.isEmpty then none else some s.2,
              estimate := some (p.estimate s.1) }
        else
          Except.ok
            { truncated := if s.2.isEmpty then none else some s.2,
              estimate := some (p.estimate s.1) }) := by
  unfold hookBody PureHookEnv.toEnv pureKeepLength
  by_cases hemp : p.memory.isEmpty
  · simp [hemp]
  · simp only [hemp, Bool.false_eq_true, reduceIte]
    by_cases hlen : ((remainingAfterSystem p.memory).length : Int) ≤ kr
    · simp [hlen]
    · simp only [hlen, reduceIte]
      by_cases hkr : kr ≤ 0
      · simp only [hkr, reduceIte]
        by_cases hk2 :
            (splitCompactKeep kr (remainingAfterSystem p.memory)).2.isEmpty <;>
          simp [hk2]
      · simp only [hkr, reduceIte, keepLengthLoop_pure, Except.map]
        by_cases hk2 : (splitCompactKeep
            (Int.ofNat (pureKeepLoop p.check_valid
              (remainingAfterSystem p.memory) kr.toNat))
            (remainingAfterSystem p.memory)).2.isEmpty <;>
          simp [hk2]

/-- C1: over any pure environment, the hook performs the summarisation
(queues the summary task, updates the compressed summary and marks the
compacted messages COMPRESSED) exactly when it computed a token estimate
exceeding `memory_compact_threshold`; when it did not trigger, none of the
summarisation effects happened. -/
theorem hook_triggers_iff_threshold (p : PureHookEnv) (thr kr : Int) :
    ((hookCallPure p thr kr).triggered = true ↔
      ∃ est, (hookCallPure p thr kr).estimate = some est ∧
        thr < (est : Int)) ∧
    ((hookCallPure p thr kr).triggered = false →
      (hookCallPure p thr kr).taskAdded = none ∧
      (hookCallPure p thr kr).summaryUpdated = none ∧
      (hookCallPure p thr kr).marked = none) := by
  unfold hookCallPure
  rw [hookBody_pure_eq]
  by_cases hemp : p.memory.isEmpty
  · simp [hemp, HookEffects.triggered]
  · simp only [hemp, Bool.false_eq_true, reduceIte]
    by_cases hlen : ((remainingAfterSystem p.memory).length : Int) ≤ kr
    · simp [hlen, HookEffects.triggered]
    · simp only [hlen, reduceIte]
      by_cases hthr : thr < (p.estimate (splitCompactKeep
          (pureKeepLength p.check_valid kr (remainingAfterSystem p.memory))
          (remainingAfterSystem p.memory)).1 : Int) <;>
        simp [hthr, HookEffects.triggered]

/-- A concrete system-prompt message. -/
def sysMsg : Msg :=
  { name := "sys", role := "system", id := 0, content := MsgContent.str "s" }

/-- A concrete user message with a given id. -/
def userMsg (n : Nat) : Msg :=
  { name := "u", role := "user", id := n, content := MsgContent.str "m" }

/-- A concrete pure hook environment: one system prompt, three user
messages, an always-valid suffix check, and fifty tokens per message. -/
def hookP : PureHookEnv :=
  { memory := [sysMsg, userMsg 1, userMsg 2, userMsg 3],
    check_valid := fun _ => true,
    estimate := fun msgs => 50 * msgs.length,
    compact := fun _ s => s ++ "+",
    previous_summary := "" }

/-- Witness for C1: with threshold 10 and `keep_recent = 1` the concrete
environment estimates 100 tokens and the hook triggers. -/
theorem hook_triggers_iff_threshold_witness :
    (hookCallPure hookP 10 1).triggered = true :=
  ((hook_triggers_iff_threshold hookP 10 1).1).mpr ⟨100, rfl, by decide⟩

/-- The leading system messages followed by the remaining ones recompose
the fetched memory. -/
theorem sys_append_remaining (msgs : List Msg) :
    systemPromptMsgs msgs ++ remainingAfterSystem msgs = msgs := by
  unfold systemPromptMsgs remainingAfterSystem systemPromptMsgs
  induction msgs with
  | nil => rfl
  | cons a l ih =>
      by_cases h : (a.role == "system") = true
      · simpa [List.takeWhile_cons, h] using ih
      · simp [List.takeWhile_cons, h]

/-- C8: the compact/keep split partitions the messages remaining after the
leading system run — their concatenation restores that list in order — and
whenever the hook hands messages to the summarisation path they are
exactly the first component of that split (so no leading system message
and no kept recent message is compacted or marked), which happens only
when the non-system messages strictly outnumber `keep_recent`. -/
theorem hook_split_preserved (p : PureHookEnv) (thr kr : Int) :
    systemPromptMsgs p.memory ++ remainingAfterSystem p.memory =
      p.memory ∧
    (∀ kl, (splitCompactKeep kl (remainingAfterSystem p.memory)).1 ++
           (splitCompactKeep kl (remainingAfterSystem p.memory)).2 =
             remainingAfterSystem p.memory) ∧
    (∀ tc, (hookCallPure p thr kr).taskAdded = some tc →
        tc = (splitCompactKeep
                (pureKeepLength p.check_valid kr
                  (remainingAfterSystem p.memory))
                (remainingAfterSystem p.memory)).1 ∧
        (hookCallPure p thr kr).marked = some (tc.map Msg.id) ∧
        kr < ((remainingAfterSystem p.memory).length : Int)) := by
  refine ⟨sys_append_remaining p.memory, fun kl => ?_, fun tc htc => ?_⟩
  · unfold splitCompactKeep
    split_ifs <;> simp [List.take_append_drop]
  · revert htc
    unfold hookCallPure
    rw [hookBody_pure_eq]
    by_cases hemp : p.memory.isEmpty
    · simp [hemp]
    · simp only [hemp, Bool.false_eq_true, reduceIte]
      by_cases hlen : ((remainingAfterSystem p.memory).length : Int) ≤ kr
      · simp [hlen]
      · simp only [hlen, reduceIte]
        by_cases hthr : thr < (p.estimate (splitCompactKeep
            (pureKeepLength p.check_valid kr (remainingAfterSystem p.memory))
            (remainingAfterSystem p.memory)).1 : Int) <;>
          simp only [hthr, reduceIte]
        · intro htc
          obtain rfl : tc = (splitCompactKeep
              (pureKeepLength p.check_valid kr (remainingAfterSystem p.memory))
              (remainingAfterSystem p.memory)).1 := by
            simpa using htc.symm
          exact ⟨rfl, rfl, by omega⟩
        · intro htc
          simp at htc

/-- Witness for C8: in the concrete environment the hook compacts exactly
the two oldest user messages and the partition facts hold. -/
theorem hook_split_preserved_witness :
    systemPromptMsgs hookP.memory ++ remainingAfterSystem hookP.memory =
      hookP.memory ∧
    (1 : Int) < ((remainingAfterSystem hookP.memory).length : Int) := by
  obtain ⟨h1, _, h3⟩ := hook_split_preserved hookP 10 1
  exact ⟨h1, (h3 [userMsg 1, userMsg 2] rfl).2.2⟩

end CoPaw
